import Mathlib

/-!
Verification of the spatial-windowing, regridding, temporal-resampling and
skill-score components of the `machine_learning_droughts` repository.

The Python sources are embedded shallowly:

* machine reals are modelled as rationals (`ℚ`);
* the `affine` library's transform objects (as used through `rasterio`) are a
  six-field structure with the library's multiplication and inversion formulas;
* `MantleModisExporter.window_from_extent` / `chop_roi`
  (src/exporters/mantle_modis.py) are modelled over an abstract raster whose
  band is a total index function;
* `BasePreProcessor.regrid` / `resample_time` (src/preprocess/base.py) are
  modelled over a dataset record, with the third-party regridder application
  kept as an explicit function parameter and its file side effects as an event
  trace;
* `skill_score` (scripts/drafts/skill_score.py) is elementwise arithmetic.
-/

/-- Python's `int()` conversion applied to a rational number: truncation toward
zero, i.e. floor for nonnegative arguments and ceiling for negative ones.
This is the rounding used by `window_from_extent` (mantle_modis.py line 94). -/
def pyInt (q : ℚ) : ℤ := if 0 ≤ q then ⌊q⌋ else ⌈q⌉

theorem pyInt_nonneg {q : ℚ} (h : 0 ≤ q) : 0 ≤ pyInt q := by
  rw [pyInt, if_pos h]
  exact Int.floor_nonneg.mpr h

theorem pyInt_intCast (n : ℤ) : pyInt (n : ℚ) = n := by
  rw [pyInt]
  split
  · exact Int.floor_intCast n
  · exact Int.ceil_intCast n

/-- Affine transform of the `affine` package: the matrix
`| a b c ; d e f ; 0 0 1 |` mapping pixel coordinates `(col, row)` to world
coordinates `(x, y)`. Only the six coefficient fields are modelled (the last
row is fixed). -/
structure Affine where
  a : ℚ
  b : ℚ
  c : ℚ
  d : ℚ
  e : ℚ
  f : ℚ
deriving DecidableEq

/-- Application of an affine transform to a point, the `affine` package's
`A * (x, y)` operator: `(a*x + b*y + c, d*x + e*y + f)`. -/
def Affine.apply (t : Affine) (p : ℚ × ℚ) : ℚ × ℚ :=
  (t.a * p.1 + t.b * p.2 + t.c, t.d * p.1 + t.e * p.2 + t.f)

/-- Determinant of the linear part, `Affine.determinant`. -/
def Affine.det (t : Affine) : ℚ := t.a * t.e - t.b * t.d

/-- Inverse transform, the `affine` package's `~A` (`Affine.__invert__`):
`ra = e/det`, `rb = -b/det`, `rd = -d/det`, `re = a/det`,
`rc = -c*ra - f*rb`, `rf = -c*rd - f*re`. -/
def Affine.inv (t : Affine) : Affine :=
  let ra := t.e / t.det
  let rb := -t.b / t.det
  let rd := -t.d / t.det
  let re := t.a / t.det
  { a := ra, b := rb, c := -t.c * ra - t.f * rb,
    d := rd, e := re, f := -t.c * rd - t.f * re }

/-- Composition of affine transforms, the `affine` package's `A * B`
(apply `B` first, then `A`). -/
def Affine.mul (t s : Affine) : Affine :=
  { a := t.a * s.a + t.b * s.d
    b := t.a * s.b + t.b * s.e
    c := t.a * s.c + t.b * s.f + t.c
    d := t.d * s.a + t.e * s.d
    e := t.d * s.b + t.e * s.e
    f := t.d * s.c + t.e * s.f + t.f }

/-- Pure translation transform, `Affine.translation(tx, ty)`. -/
def Affine.translate (tx ty : ℚ) : Affine :=
  { a := 1, b := 0, c := tx, d := 0, e := 1, f := ty }

theorem Affine.apply_inv_apply (t : Affine) (hdet : t.det ≠ 0) (p : ℚ × ℚ) :
    t.apply (t.inv.apply p) = p := by
  have h : t.a * t.e - t.b * t.d ≠ 0 := hdet
  obtain ⟨x, y⟩ := p
  simp only [Affine.apply, Affine.inv, Affine.det] at *
  refine Prod.ext ?_ ?_ <;> field_simp <;> ring

/-- Model of `MantleModisExporter.window_from_extent`
(src/exporters/mantle_modis.py lines 87-94):

    col_start, row_start = ~aff * (xmin, ymax)
    col_stop, row_stop = ~aff * (xmax, ymin)
    return ((int(row_start), int(row_stop)), (int(col_start), int(col_stop)))
-/
def window_from_extent (xmin xmax ymin ymax : ℚ) (aff : Affine) :
    (ℤ × ℤ) × (ℤ × ℤ) :=
  let p1 := aff.inv.apply (xmin, ymax)
  let p2 := aff.inv.apply (xmax, ymin)
  ((pyInt p1.2, pyInt p2.2), (pyInt p1.1, pyInt p2.1))

/-- C1: for every invertible affine transform and bounding box,
`window_from_extent` returns the window `((row_start, row_stop),
(col_start, col_stop))` obtained by applying the inverse affine transform to
the box's corners — `(col_start, row_start)` from the top-left corner
`(xmin, ymax)` and `(col_stop, row_stop)` from the bottom-right corner
`(xmax, ymin)` — and then rounding each coordinate to an integer pixel
boundary (Python `int()` truncation). The corner pre-images are exhibited as
the points that the forward transform maps back onto the corners. -/
theorem window_from_extent_inverse_corners
    (xmin xmax ymin ymax : ℚ) (aff : Affine) (hdet : aff.det ≠ 0) :
    ∃ tl br : ℚ × ℚ,
      aff.apply tl = (xmin, ymax) ∧
      aff.apply br = (xmax, ymin) ∧
      window_from_extent xmin xmax ymin ymax aff =
        ((pyInt tl.2, pyInt br.2), (pyInt tl.1, pyInt br.1)) := by
  exact ⟨aff.inv.apply (xmin, ymax), aff.inv.apply (xmax, ymin),
    aff.apply_inv_apply hdet _, aff.apply_inv_apply hdet _, rfl⟩

/-- Witness for C1 at a concrete north-up transform: pixel (col, row) maps to
world (col, 10 - row), the box x ∈ [2, 5], y ∈ [3, 7] yields corner pre-images
whose truncation is the returned window. -/
theorem window_from_extent_inverse_corners_witness :
    ∃ tl br : ℚ × ℚ,
      (Affine.mk 1 0 0 0 (-1) 10).apply tl = (2, 7) ∧
      (Affine.mk 1 0 0 0 (-1) 10).apply br = (5, 3) ∧
      window_from_extent 2 5 3 7 (Affine.mk 1 0 0 0 (-1) 10) =
        ((pyInt tl.2, pyInt br.2), (pyInt tl.1, pyInt br.1)) :=
  window_from_extent_inverse_corners 2 5 3 7 (Affine.mk 1 0 0 0 (-1) 10)
    (by norm_num [Affine.det])

/-- C2: failing evaluation for the bounds policy. For the 10×10 north-up
raster covering x ∈ [0, 10], y ∈ [0, 10] (transform a = 1, b = 0, c = 0,
d = 0, e = -1, f = 10) and the request box xmin = -5, xmax = 5, ymin = 0,
ymax = 10, which extends outside the raster, `window_from_extent` raises no
error and returns the window ((0, 10), (-5, 5)), whose column range starts at
-5 — outside the raster. The code has no bounds guard, so out-of-range
requests are neither rejected with a BoundsError nor kept inside the source
raster's extent. -/
theorem window_from_extent_no_bounds_guard :
    window_from_extent (-5) 5 0 10 (Affine.mk 1 0 0 0 (-1) 10) =
      ((0, 10), (-5, 5)) ∧ (-5 : ℤ) < 0 := by
  constructor
  · norm_num [window_from_extent, Affine.inv, Affine.apply, Affine.det, pyInt,
      Int.ceil_neg]
  · decide

/-- Gridded values of one data variable (a 2-D array of rationals). -/
abbrev Grid := List (List ℚ)

/-- Model of an `xarray.Dataset` at the granularity `BasePreProcessor.regrid`
needs: declared dimension names, the `lat` and `lon` coordinate values, and
the named data variables. -/
structure Dataset where
  dims : List String
  lat : List ℚ
  lon : List ℚ
  data_vars : List (String × Grid)
deriving DecidableEq

/-- Failure of one of the `assert` precondition checks at the top of
`BasePreProcessor.regrid` (src/preprocess/base.py lines 50-57). -/
inductive RegridError where
  | validationError
deriving DecidableEq

/-- Observable side effects of a `regrid` call: creation of the weight file by
the `xe.Regridder` constructor, application of the regridder to one variable,
and deletion of the weight file by `regridder.clean_weight_file()`. -/
inductive RegridEvent where
  | computeWeights (filename : String)
  | applyVar (varname : String)
  | deleteFile (filename : String)
deriving DecidableEq

/-- Weight-file name built at src/preprocess/base.py line 70:
`f'{method}_{shape_in[0]}x{shape_in[1]}_{shape_out[0]}x{shape_out[1]}.nc'`. -/
def weight_filename (method : String) (ny_in nx_in ny_out nx_out : ℕ) : String :=
  s!"{method}_{ny_in}x{nx_in}_{ny_out}x{nx_out}.nc"

/-- Acceptable regridding methods (src/preprocess/base.py line 55). -/
def regridding_methods : List String :=
  ["bilinear", "conservative", "nearest_s2d", "nearest_d2s", "patch"]

/-- Model of `BasePreProcessor.regrid` (src/preprocess/base.py lines 34-89).
The precondition `assert`s become `RegridError.validationError`; `ds_out` is
built from the reference dataset's `lat`/`lon` (lines 59-63); the xESMF
regridder is abstracted as the function argument `interp` (applied once per
variable, with its weight computation and weight-file deletion recorded in the
event trace); the returned dataset is rebuilt from the regridded variables,
which xESMF places on the `ds_out` lattice. -/
def regrid (interp : String → Grid → Grid) (ds : Dataset)
    (reference_ds : Dataset) (method : String) :
    Except RegridError (Dataset × List RegridEvent) :=
  if ¬(("lat" ∈ reference_ds.dims) ∧ ("lon" ∈ reference_ds.dims)) then
    .error .validationError
  else if ¬(("lat" ∈ ds.dims) ∧ ("lon" ∈ ds.dims)) then
    .error .validationError
  else if ¬(method ∈ regridding_methods) then
    .error .validationError
  else
    let ds_out : Dataset :=
      { dims := ["lat", "lon"], lat := reference_ds.lat,
        lon := reference_ds.lon, data_vars := [] }
    let ny_in := ds.lat.length
    let nx_in := ds.lon.length
    let ny_out := reference_ds.lat.length
    let nx_out := reference_ds.lon.length
    let filename := weight_filename method ny_in nx_in ny_out nx_out
    let var_names := ds.data_vars.map Prod.fst
    let output_vars := ds.data_vars.map (fun p => (p.1, interp method p.2))
    let events := RegridEvent.computeWeights filename ::
      (var_names.map RegridEvent.applyVar ++
        [RegridEvent.deleteFile filename])
    .ok ({ ds_out with data_vars := output_vars }, events)

/-- Interpretation of one regrid event against a file store (a list of file
names): weight computation writes the weight file, variable application
touches no files, cleanup removes the weight file. -/
def applyEvent (fs : List String) : RegridEvent → List String
  | .computeWeights name => if name ∈ fs then fs else fs ++ [name]
  | .applyVar _ => fs
  | .deleteFile name => fs.filter (fun g => g != name)

/-- Replay of an event trace against a file store. -/
def runFS (fs : List String) (evs : List RegridEvent) : List String :=
  evs.foldl applyEvent fs

/-- Recogniser for weight-computation events. -/
def isComputeWeights : RegridEvent → Bool
  | .computeWeights _ => true
  | _ => false

theorem runFS_applyVars (fs : List String) (l : List String) :
    runFS fs (l.map RegridEvent.applyVar) = fs := by
  induction l generalizing fs with
  | nil => rfl
  | cons x xs ih => simpa [runFS, applyEvent] using ih fs

theorem runFS_trace_no_weight_file (fs : List String) (name : String)
    (l : List String) :
    name ∉ runFS fs (RegridEvent.computeWeights name ::
      (l.map RegridEvent.applyVar ++ [RegridEvent.deleteFile name])) := by
  have h1 : runFS fs (RegridEvent.computeWeights name ::
      (l.map RegridEvent.applyVar ++ [RegridEvent.deleteFile name])) =
      applyEvent (runFS (applyEvent fs (RegridEvent.computeWeights name))
        (l.map RegridEvent.applyVar)) (RegridEvent.deleteFile name) := by
    simp [runFS, List.foldl_append]
  rw [h1, runFS_applyVars]
  simp [applyEvent, List.mem_filter]

theorem regrid_eq_ok (interp : String → Grid → Grid) (ds reference_ds : Dataset)
    (method : String)
    (h1 : "lat" ∈ reference_ds.dims ∧ "lon" ∈ reference_ds.dims)
    (h2 : "lat" ∈ ds.dims ∧ "lon" ∈ ds.dims)
    (h3 : method ∈ regridding_methods) :
    regrid interp ds reference_ds method =
      .ok ({ dims := ["lat", "lon"], lat := reference_ds.lat,
             lon := reference_ds.lon,
             data_vars := ds.data_vars.map (fun p => (p.1, interp method p.2)) },
           RegridEvent.computeWeights (weight_filename method ds.lat.length
               ds.lon.length reference_ds.lat.length reference_ds.lon.length) ::
             ((ds.data_vars.map Prod.fst).map RegridEvent.applyVar ++
               [RegridEvent.deleteFile (weight_filename method ds.lat.length
                 ds.lon.length reference_ds.lat.length
                 reference_ds.lon.length)])) := by
  rw [regrid, if_neg (not_not_intro h1), if_neg (not_not_intro h2),
    if_neg (not_not_intro h3)]

/-- C4: for every source dataset, reference dataset and valid interpolation
method, `regrid` succeeds and returns a dataset whose data-variable names are
exactly the input dataset's data-variable names (none dropped, none added,
order preserved), each variable being the regridder's resampling of the
corresponding input variable. -/
theorem regrid_preserves_variable_set (interp : String → Grid → Grid)
    (ds reference_ds : Dataset) (method : String)
    (h1 : "lat" ∈ reference_ds.dims ∧ "lon" ∈ reference_ds.dims)
    (h2 : "lat" ∈ ds.dims ∧ "lon" ∈ ds.dims)
    (h3 : method ∈ regridding_methods) :
    ∃ out : Dataset, ∃ evs : List RegridEvent,
      regrid interp ds reference_ds method = .ok (out, evs) ∧
      out.data_vars.map Prod.fst = ds.data_vars.map Prod.fst ∧
      out.data_vars = ds.data_vars.map (fun p => (p.1, interp method p.2)) := by
  refine ⟨_, _, regrid_eq_ok interp ds reference_ds method h1 h2 h3, ?_, rfl⟩
  simp [List.map_map, Function.comp]

/-- Witness for C4: a concrete two-variable dataset regridded (with a
concrete stand-in interpolation) onto a concrete reference grid keeps exactly
its variable names. -/
theorem regrid_preserves_variable_set_witness :
    ∃ out : Dataset, ∃ evs : List RegridEvent,
      regrid (fun _ g => g)
          (Dataset.mk ["lat", "lon"] [0] [0, 1] [("vci", [[1, 2]]), ("ndvi", [[3, 4]])])
          (Dataset.mk ["time", "lat", "lon"] [0, 1] [0] [("precip", [[5], [6]])])
          "bilinear" = .ok (out, evs) ∧
      out.data_vars.map Prod.fst =
        (Dataset.mk ["lat", "lon"] [0] [0, 1]
          [("vci", [[1, 2]]), ("ndvi", [[3, 4]])]).data_vars.map Prod.fst ∧
      out.data_vars =
        (Dataset.mk ["lat", "lon"] [0] [0, 1]
          [("vci", [[1, 2]]), ("ndvi", [[3, 4]])]).data_vars.map
            (fun p => (p.1, (fun _ g => g : String → Grid → Grid) "bilinear" p.2)) :=
  regrid_preserves_variable_set (fun _ g => g)
    (Dataset.mk ["lat", "lon"] [0] [0, 1] [("vci", [[1, 2]]), ("ndvi", [[3, 4]])])
    (Dataset.mk ["time", "lat", "lon"] [0, 1] [0] [("precip", [[5], [6]])])
    "bilinear" (by decide) (by decide) (by decide)

/-- C5: `regrid` fails with a validation error whenever either the source or
the reference dataset does not declare both `lat` and `lon` dimensions, and
succeeds (in particular, passes this precondition) whenever both declare them
and the method is one of the five acceptable regridding methods. -/
theorem regrid_validates_latlon_dims (interp : String → Grid → Grid)
    (ds reference_ds : Dataset) (method : String) :
    ((¬("lat" ∈ ds.dims ∧ "lon" ∈ ds.dims) ∨
        ¬("lat" ∈ reference_ds.dims ∧ "lon" ∈ reference_ds.dims)) →
      regrid interp ds reference_ds method = .error .validationError) ∧
    (("lat" ∈ ds.dims ∧ "lon" ∈ ds.dims) →
      ("lat" ∈ reference_ds.dims ∧ "lon" ∈ reference_ds.dims) →
      method ∈ regridding_methods →
      ∃ out, regrid interp ds reference_ds method = .ok out) := by
  constructor
  · intro h
    by_cases href : ("lat" ∈ reference_ds.dims ∧ "lon" ∈ reference_ds.dims)
    · have hds : ¬("lat" ∈ ds.dims ∧ "lon" ∈ ds.dims) := by
        rcases h with h | h
        · exact h
        · exact absurd href h
      rw [regrid, if_neg (not_not_intro href), if_pos hds]
    · rw [regrid, if_pos href]
  · intro h2 h1 h3
    exact ⟨_, regrid_eq_ok interp ds reference_ds method h1 h2 h3⟩

/-- Witness for C5: a dataset without a `lat` dimension is rejected, while the
same call with both dimensions declared on both datasets succeeds. -/
theorem regrid_validates_latlon_dims_witness :
    regrid (fun _ g => g) (Dataset.mk ["x", "y"] [0] [0] [("vci", [[1]])])
        (Dataset.mk ["lat", "lon"] [0] [0] []) "bilinear" =
      .error .validationError ∧
    ∃ out, regrid (fun _ g => g)
        (Dataset.mk ["lat", "lon"] [0] [0] [("vci", [[1]])])
        (Dataset.mk ["lat", "lon"] [0] [0] []) "bilinear" = .ok out :=
  ⟨(regrid_validates_latlon_dims (fun _ g => g)
      (Dataset.mk ["x", "y"] [0] [0] [("vci", [[1]])])
      (Dataset.mk ["lat", "lon"] [0] [0] []) "bilinear").1 (Or.inl (by decide)),
   (regrid_validates_latlon_dims (fun _ g => g)
      (Dataset.mk ["lat", "lon"] [0] [0] [("vci", [[1]])])
      (Dataset.mk ["lat", "lon"] [0] [0] []) "bilinear").2 (by decide) (by decide)
      (by decide)⟩

/-- C6: every successful `regrid` call computes its interpolation weights
exactly once (reusing them for every variable in the call), stores them under
the name `{method}_{ny_in}x{nx_in}_{ny_out}x{nx_out}.nc` keyed by the method
and the source and destination shapes, and deletes that file before
returning, so no file store that replays the call's events still contains the
weight file afterwards. -/
theorem regrid_weight_file_lifecycle (interp : String → Grid → Grid)
    (ds reference_ds : Dataset) (method : String) (fs : List String)
    (h1 : "lat" ∈ reference_ds.dims ∧ "lon" ∈ reference_ds.dims)
    (h2 : "lat" ∈ ds.dims ∧ "lon" ∈ ds.dims)
    (h3 : method ∈ regridding_methods) :
    ∃ out : Dataset, ∃ evs : List RegridEvent,
      regrid interp ds reference_ds method = .ok (out, evs) ∧
      evs.filter isComputeWeights =
        [RegridEvent.computeWeights (weight_filename method ds.lat.length
          ds.lon.length reference_ds.lat.length reference_ds.lon.length)] ∧
      weight_filename method ds.lat.length ds.lon.length
          reference_ds.lat.length reference_ds.lon.length ∉ runFS fs evs := by
  refine ⟨_, _, regrid_eq_ok interp ds reference_ds method h1 h2 h3, ?_, ?_⟩
  · simp [isComputeWeights, List.filter_append, List.filter_map, Function.comp]
  · exact runFS_trace_no_weight_file fs _ _

/-- Witness for C6: a concrete regrid of a 1×2 grid with two variables onto a
2×1 reference grid keys its single weight computation by
`bilinear_1x2_2x1.nc` and leaves no weight file in an initially empty file
store. -/
theorem regrid_weight_file_lifecycle_witness :
    ∃ out : Dataset, ∃ evs : List RegridEvent,
      regrid (fun _ g => g)
          (Dataset.mk ["lat", "lon"] [0] [0, 1]
            [("vci", [[1, 2]]), ("ndvi", [[3, 4]])])
          (Dataset.mk ["lat", "lon"] [0, 1] [0] []) "bilinear" =
        .ok (out, evs) ∧
      evs.filter isComputeWeights =
        [RegridEvent.computeWeights (weight_filename "bilinear" 1 2 2 1)] ∧
      weight_filename "bilinear" 1 2 2 1 ∉ runFS [] evs :=
  regrid_weight_file_lifecycle (fun _ g => g)
    (Dataset.mk ["lat", "lon"] [0] [0, 1] [("vci", [[1, 2]]), ("ndvi", [[3, 4]])])
    (Dataset.mk ["lat", "lon"] [0, 1] [0] []) "bilinear" [] (by decide)
    (by decide) (by decide)

/-- C10: for every accepted pair of datasets and valid method, the dataset
returned by `regrid` carries exactly the reference dataset's `lat` and `lon`
coordinate values — every regrid output lies on the destination lattice,
regardless of the interpolation method. -/
theorem regrid_output_on_reference_grid (interp : String → Grid → Grid)
    (ds reference_ds : Dataset) (method : String)
    (h1 : "lat" ∈ reference_ds.dims ∧ "lon" ∈ reference_ds.dims)
    (h2 : "lat" ∈ ds.dims ∧ "lon" ∈ ds.dims)
    (h3 : method ∈ regridding_methods) :
    ∃ out : Dataset, ∃ evs : List RegridEvent,
      regrid interp ds reference_ds method = .ok (out, evs) ∧
      out.lat = reference_ds.lat ∧ out.lon = reference_ds.lon :=
  ⟨_, _, regrid_eq_ok interp ds reference_ds method h1 h2 h3, rfl, rfl⟩

/-- Witness for C10: a concrete regrid lands on the concrete reference
lattice. -/
theorem regrid_output_on_reference_grid_witness :
    ∃ out : Dataset, ∃ evs : List RegridEvent,
      regrid (fun _ g => g)
          (Dataset.mk ["lat", "lon"] [0] [0, 1] [("vci", [[1, 2]])])
          (Dataset.mk ["lat", "lon"] [0, 7] [3] []) "patch" = .ok (out, evs) ∧
      out.lat = (Dataset.mk ["lat", "lon"] [0, 7] [3] [] : Dataset).lat ∧
      out.lon = (Dataset.mk ["lat", "lon"] [0, 7] [3] [] : Dataset).lon :=
  regrid_output_on_reference_grid (fun _ g => g)
    (Dataset.mk ["lat", "lon"] [0] [0, 1] [("vci", [[1, 2]])])
    (Dataset.mk ["lat", "lon"] [0, 7] [3] []) "patch" (by decide) (by decide)
    (by decide)

/-- Model of `skill_score` (scripts/drafts/skill_score.py lines 23-24):
`return (model - bench) / (perfect - bench)`. -/
def skill_score (model bench perfect : ℚ) : ℚ :=
  (model - bench) / (perfect - bench)

/-- C9: whenever the benchmark metric differs from the perfect metric,
`skill_score` returns exactly
`(model_metric - benchmark_metric) / (perfect_metric - benchmark_metric)`:
multiplied back by the (nonzero) denominator it recovers the numerator, and
it normalizes the perfect metric to 1 and the benchmark itself to 0. -/
theorem skill_score_formula (model bench perfect : ℚ) (h : bench ≠ perfect) :
    skill_score model bench perfect * (perfect - bench) = model - bench ∧
    skill_score perfect bench perfect = 1 ∧
    skill_score bench bench perfect = 0 := by
  have hp : perfect - bench ≠ 0 := sub_ne_zero.mpr (Ne.symm h)
  refine ⟨?_, ?_, ?_⟩
  · rw [skill_score, div_mul_cancel₀ _ hp]
  · rw [skill_score, div_self hp]
  · rw [skill_score, sub_self, zero_div]

/-- Witness for C9 at model = 3, benchmark = 1, perfect = 5. -/
theorem skill_score_formula_witness :
    skill_score 3 1 5 * (5 - 1) = 3 - 1 ∧
    skill_score 5 1 5 = 1 ∧
    skill_score 1 1 5 = 0 :=
  skill_score_formula 3 1 5 (by norm_num)

/-- Time series of one variable: (timestamp in days, value) pairs, the
granularity at which `resample_time` manipulates a time-indexed dataset. -/
abbrev Series := List (ℕ × ℚ)

/-- Calendar month lengths of a non-leap year. -/
def month_lengths : List ℕ := [31, 28, 31, 30, 31, 30, 31, 31, 30, 31, 30, 31]

/-- Number of days strictly before (1-indexed) month `m + 1`. -/
def daysBefore (m : ℕ) : ℕ := (month_lengths.take m).sum

/-- Calendar month (1..12) containing day `d` (days are 1-indexed within the
year). -/
def monthOf (d : ℕ) : ℕ :=
  ((List.range 12).filter (fun m => decide (daysBefore m < d))).length

/-- Resampling frequency label passed to `ds.resample(time=...)`:
monthly (`'M'`) or daily (`'D'`). -/
inductive Freq where
  | monthly
  | daily
deriving DecidableEq

/-- Resampling bin a timestamp belongs to: its calendar month for monthly
resampling, the day itself for daily resampling. -/
def Freq.period : Freq → ℕ → ℕ
  | .monthly => monthOf
  | .daily => fun d => d

/-- Sorting by the time coordinate, `ds.sortby('time')`
(src/preprocess/base.py line 110); Python's sort is stable, as is insertion
sort. -/
def sortByTime (xs : Series) : Series :=
  List.insertionSort (fun p q => p.1 ≤ q.1) xs

/-- Arithmetic mean used by `resampler.mean()` for one bin. -/
def meanQ (l : List ℚ) : ℚ := l.sum / (l.length : ℚ)

/-- Values of the samples falling in bin `p`. -/
def periodValues (per : ℕ → ℕ) (p : ℕ) (xs : Series) : List ℚ :=
  (xs.filter (fun x => per x.1 == p)).map Prod.snd

/-- Distance between two day indices. -/
def distN (a b : ℕ) : ℕ := max a b - min a b

/-- Sample with timestamp nearest to target day `d` (first-seen wins ties),
the per-day selection of `resampler.nearest()`. -/
def nearestValue (d : ℕ) (x : ℕ × ℚ) (l : List (ℕ × ℚ)) : ℕ × ℚ :=
  l.foldl (fun best y => if distN d y.1 < distN d best.1 then y else best) x

/-- Daily target lattice of `ds.resample(time='D')`: every day from the first
to the last input timestamp. -/
def dailyTargets (xs : Series) : List ℕ :=
  match xs.map Prod.fst with
  | [] => []
  | t :: ts =>
    let lo := ts.foldl Nat.min t
    let hi := ts.foldl Nat.max t
    (List.range (hi + 1 - lo)).map (fun k => lo + k)

/-- Target timestamps of the resampler for each frequency: every day in range
for daily, the month-end days in range for monthly. -/
def Freq.targets : Freq → Series → List ℕ
  | .daily, xs => dailyTargets xs
  | .monthly, xs => (dailyTargets xs).filter (fun d => monthOf (d + 1) != monthOf d)

/-- Nearest-fill reindexing of `resampler.nearest()`: each target timestamp
receives the value of the nearest input sample. -/
def upsample_nearest (targets : List ℕ) (xs : Series) : Series :=
  match xs with
  | [] => []
  | x :: rest => targets.map (fun d => (d, (nearestValue d x rest).2))

/-- Model of `BasePreProcessor.resample_time` (src/preprocess/base.py lines
104-117): sort by time; with `upsampling = False` return the per-bin
arithmetic means (`resampler.mean()`, one output sample per nonempty bin,
keyed by bin); with `upsampling = True` return the nearest-fill reindexing
onto the target lattice (`resampler.nearest()`). Bins that contain no input
sample (NaN-filled by xarray) are omitted. -/
def resample_time (ds : Series) (resample_length : Freq)
    (upsampling : Bool) : Series :=
  let s := sortByTime ds
  if upsampling = false then
    ((s.map (fun x => resample_length.period x.1)).dedup).map
      (fun p => (p, meanQ (periodValues resample_length.period p s)))
  else
    upsample_nearest (resample_length.targets s) s

theorem meanQ_replicate (n : ℕ) (hn : n ≠ 0) (c : ℚ) :
    meanQ (List.replicate n c) = c := by
  have hn' : (n : ℚ) ≠ 0 := Nat.cast_ne_zero.mpr hn
  rw [meanQ, List.sum_replicate, List.length_replicate, nsmul_eq_mul]
  exact mul_div_cancel_left₀ c hn'

/-- C7: `resample_time` with `upsampling = False` (downsampling) gives every
output bin the arithmetic mean of the input samples falling in it, emits
exactly one output sample per distinct input bin, and in particular maps the
literal daily series over a 31-day month holding the constant 5 to the single
monthly sample (month 1, 5). -/
theorem resample_time_downsampling_mean (freq : Freq) (xs : Series) :
    (∀ pv ∈ resample_time xs freq false,
      pv.2 = meanQ (periodValues freq.period pv.1 (sortByTime xs))) ∧
    ((resample_time xs freq false).map Prod.fst).Nodup ∧
    resample_time ((List.range 31).map (fun k => (k + 1, (5 : ℚ))))
      Freq.monthly false = [(1, 5)] := by
  refine ⟨?_, ?_, ?_⟩
  · intro pv hpv
    simp only [resample_time, eq_self_iff_true, if_true, List.mem_map] at hpv
    obtain ⟨p, hp, hpe⟩ := hpv
    subst hpe
    rfl
  · simp only [resample_time, eq_self_iff_true, if_true, List.map_map]
    have hfst : (Prod.fst ∘ fun p =>
        (p, meanQ (periodValues freq.period p (sortByTime xs)))) = id := rfl
    rw [hfst, List.map_id]
    exact List.nodup_dedup _
  · have hsort : sortByTime ((List.range 31).map (fun k => (k + 1, (5 : ℚ)))) =
        (List.range 31).map (fun k => (k + 1, (5 : ℚ))) := by decide
    have hded : (((List.range 31).map (fun k => (k + 1, (5 : ℚ)))).map
        (fun x => Freq.period Freq.monthly x.1)).dedup = [1] := by decide
    have hvals : periodValues (Freq.period Freq.monthly) 1
        ((List.range 31).map (fun k => (k + 1, (5 : ℚ)))) =
        List.replicate 31 5 := by decide
    rw [resample_time]
    simp only [eq_self_iff_true, if_true, hsort, hded, hvals, List.map_cons,
      List.map_nil]
    rw [meanQ_replicate 31 (by decide) 5]

/-- Witness for C7: the single monthly output sample of the 31-day constant
series indeed carries the arithmetic mean of its bin. -/
theorem resample_time_downsampling_mean_witness :
    (((1 : ℕ), (5 : ℚ))).2 = meanQ (periodValues (Freq.period Freq.monthly)
      (((1 : ℕ), (5 : ℚ))).1
      (sortByTime ((List.range 31).map (fun k => (k + 1, (5 : ℚ)))))) := by
  have h := resample_time_downsampling_mean Freq.monthly
    ((List.range 31).map (fun k => (k + 1, (5 : ℚ))))
  exact h.1 (1, 5) (by rw [h.2.2]; exact List.mem_singleton.mpr rfl)

theorem nearestValue_spec (d : ℕ) (x : ℕ × ℚ) (l : List (ℕ × ℚ)) :
    nearestValue d x l ∈ x :: l ∧
    ∀ z ∈ x :: l, distN d (nearestValue d x l).1 ≤ distN d z.1 := by
  induction l generalizing x with
  | nil =>
    refine ⟨List.mem_singleton.mpr rfl, ?_⟩
    intro z hz
    rw [List.mem_singleton.mp hz]
    exact le_refl _
  | cons y ys ih =>
    have hstep : nearestValue d x (y :: ys) =
        nearestValue d (if distN d y.1 < distN d x.1 then y else x) ys := rfl
    obtain ⟨hmem, hmin⟩ := ih (if distN d y.1 < distN d x.1 then y else x)
    have hself : distN d (nearestValue d x (y :: ys)).1 ≤
        distN d (if distN d y.1 < distN d x.1 then y else x).1 := by
      rw [hstep]
      exact hmin _ (List.mem_cons_self _ _)
    have hle_x : distN d (if distN d y.1 < distN d x.1 then y else x).1 ≤
        distN d x.1 := by
      split
      · exact le_of_lt (by assumption)
      · exact le_refl _
    have hle_y : distN d (if distN d y.1 < distN d x.1 then y else x).1 ≤
        distN d y.1 := by
      split
      · exact le_refl _
      · exact le_of_not_lt (by assumption)
    constructor
    · rw [hstep]
      rcases List.mem_cons.mp hmem with h | h
      · rw [h]
        split
        · exact List.mem_cons_of_mem _ (List.mem_cons_self _ _)
        · exact List.mem_cons_self _ _
      · exact List.mem_cons_of_mem _ (List.mem_cons_of_mem _ h)
    · intro z hz
      rcases List.mem_cons.mp hz with hzx | hz'
      · subst hzx
        exact le_trans hself hle_x
      · rcases List.mem_cons.mp hz' with hzy | hzys
        · subst hzy
          exact le_trans hself hle_y
        · rw [hstep]
          exact hmin z (List.mem_cons_of_mem _ hzys)

/-- C8 counterexample: the monthly series with month-end timestamps
(day 31 = Jan 31 with value 10, day 59 = Feb 28 with value 20), upsampled to
daily with nearest-fill, assigns day 35 — a day of February (month 2, the
month of the sample at day 59) — the JANUARY value 10, because day 35 is 4
days from the January stamp and 24 days from the February stamp. So
upsampling does not reproduce each month's value on every day within that
month. -/
theorem resample_time_upsampling_not_monthwise :
    (35, (10 : ℚ)) ∈ resample_time [(31, 10), (59, 20)] Freq.daily true ∧
    monthOf 31 = 1 ∧ monthOf 35 = 2 ∧ monthOf 59 = 2 ∧ (10 : ℚ) ≠ 20 := by
  refine ⟨by decide, by decide, by decide, by decide, by decide⟩

/-- C8 amended: `resample_time` with `upsampling = True` to daily frequency
gives every output day the value of a chronologically nearest input sample
(nearest-fill); a day therefore carries its own calendar month's value
exactly when its month's timestamp is at least as near as every other
sample's, which can fail for days closer to an adjacent month's timestamp. -/
theorem resample_time_upsampling_nearest (xs : Series) (dv : ℕ × ℚ)
    (hdv : dv ∈ resample_time xs Freq.daily true) :
    ∃ tw : ℕ × ℚ, tw ∈ xs ∧ dv.2 = tw.2 ∧
      ∀ tw' ∈ xs, distN dv.1 tw.1 ≤ distN dv.1 tw'.1 := by
  have hperm : (sortByTime xs).Perm xs := List.perm_insertionSort _ xs
  have hres : resample_time xs Freq.daily true =
      upsample_nearest (Freq.targets Freq.daily (sortByTime xs))
        (sortByTime xs) := by
    simp [resample_time]
  rw [hres] at hdv
  cases hs : sortByTime xs with
  | nil => rw [hs] at hdv; simp [upsample_nearest] at hdv
  | cons x rest =>
    rw [hs] at hdv
    simp only [upsample_nearest, List.mem_map] at hdv
    obtain ⟨d, _, hde⟩ := hdv
    obtain ⟨hmem, hmin⟩ := nearestValue_spec d x rest
    refine ⟨nearestValue d x rest, ?_, ?_, ?_⟩
    · exact hperm.subset (hs ▸ hmem)
    · rw [← hde]
    · intro tw' htw'
      rw [← hde]
      exact hmin tw' (hs ▸ hperm.symm.subset htw')

/-- Witness for C8 (amended): in the two-month series the output day 35
receives the value of its nearest sample, the January stamp at day 31. -/
theorem resample_time_upsampling_nearest_witness :
    ∃ tw : ℕ × ℚ, tw ∈ ([(31, 10), (59, 20)] : Series) ∧
      ((35 : ℕ), (10 : ℚ)).2 = tw.2 ∧
      ∀ tw' ∈ ([(31, 10), (59, 20)] : Series),
        distN ((35 : ℕ), (10 : ℚ)).1 tw.1 ≤ distN ((35 : ℕ), (10 : ℚ)).1 tw'.1 :=
  resample_time_upsampling_nearest [(31, 10), (59, 20)] (35, 10) (by decide)

/-- Fractional rasterio window `Window(col_off, row_off, width, height)`. -/
@[ext]
structure FracWindow where
  col_off : ℚ
  row_off : ℚ
  width : ℚ
  height : ℚ
deriving DecidableEq

/-- Rasterio window after offset and shape rounding. -/
structure IntWindow where
  col_off : ℤ
  row_off : ℤ
  width : ℤ
  height : ℤ
deriving DecidableEq

/-- Model of `rasterio.windows.bounds` for a window given as
`((row_min, row_max), (col_min, col_max))`: the spatial bounds
`(left, bottom, right, top)`, computed as
`x_min, y_min = transform * (col_min, row_max)` and
`x_max, y_max = transform * (col_max, row_min)`. -/
def window_bounds (w : (ℤ × ℤ) × (ℤ × ℤ)) (t : Affine) : ℚ × ℚ × ℚ × ℚ :=
  let lb := t.apply ((w.2.1 : ℚ), (w.1.2 : ℚ))
  let rt := t.apply ((w.2.2 : ℚ), (w.1.1 : ℚ))
  (lb.1, lb.2, rt.1, rt.2)

/-- Model of `DatasetReader.window_transform` (`rasterio.windows.transform`):
the affine transform of the windowed sub-raster, which equals
`transform * Affine.translation(col_off, row_off)` as a point map. -/
def window_transform (t : Affine) (w : (ℤ × ℤ) × (ℤ × ℤ)) : Affine :=
  t.mul (Affine.translate (w.2.1 : ℚ) (w.1.1 : ℚ))

/-- Model of `rasterio.windows.from_bounds`: the fractional window whose
offsets are the inverse image of `(left, top)` and whose extents reach the
inverse image of `(right, bottom)` under the given transform. -/
def from_bounds (left bottom right top : ℚ) (t : Affine) : FracWindow :=
  let p1 := t.inv.apply (left, top)
  let p2 := t.inv.apply (right, bottom)
  { col_off := p1.1, row_off := p1.2,
    width := p2.1 - p1.1, height := p2.2 - p1.2 }

/-- Model of `Window.round_shape().round_offsets()` as called in `chop_roi`:
offsets are floored and lengths are ceiled (the windows reaching this point
in `chop_roi` are exactly integral, so each rounding is the identity there
and the choice of rounding op is immaterial). -/
def round_window (w : FracWindow) : IntWindow :=
  { col_off := ⌊w.col_off⌋, row_off := ⌊w.row_off⌋,
    width := ⌈w.width⌉, height := ⌈w.height⌉ }

/-- Raster tile: a band of values indexed by (row, col), pixel dimensions,
and the affine transform mapping pixel indices to world coordinates. -/
structure Raster (α : Type) where
  height : ℕ
  width : ℕ
  transform : Affine
  data : ℕ → ℕ → α

/-- Model of the geometric core of `MantleModisExporter.chop_roi`
(src/exporters/mantle_modis.py lines 96-153): compute the pixel window from
the region box with `window_from_extent`; take `src_bounds = bounds(window,
src.transform)`; build the destination profile with the windowed
height/width and `dst_transform = src.window_transform(window)`; compute
`dst_window = from_bounds(*src_bounds, dst_transform)` rounded; read the
cropped sub-array `src.read(1, window=window)` and write it into the fresh
destination raster at `dst_window` (cells not written keep the destination's
fill value). Reads are modelled for in-range windows — the scope of the
claim — the source band being a total index function. -/
def chop_roi {α : Type} (src : Raster α) (fill : α)
    (xmin xmax ymin ymax : ℚ) : Raster α :=
  let w := window_from_extent xmin xmax ymin ymax src.transform
  let src_bounds := window_bounds w src.transform
  let dst_transform := window_transform src.transform w
  let dw := round_window (from_bounds src_bounds.1 src_bounds.2.1
    src_bounds.2.2.1 src_bounds.2.2.2 dst_transform)
  { height := (w.1.2 - w.1.1).toNat
    width := (w.2.2 - w.2.1).toNat
    transform := dst_transform
    data := fun i j =>
      if 0 ≤ (i : ℤ) - dw.row_off ∧ (i : ℤ) - dw.row_off < w.1.2 - w.1.1 ∧
          0 ≤ (j : ℤ) - dw.col_off ∧ (j : ℤ) - dw.col_off < w.2.2 - w.2.1 then
        src.data (w.1.1 + ((i : ℤ) - dw.row_off)).toNat
          (w.2.1 + ((j : ℤ) - dw.col_off)).toNat
      else fill }

theorem window_from_extent_rect (xmin xmax ymin ymax : ℚ) (t : Affine)
    (hb : t.b = 0) (hd : t.d = 0) (ha : t.a ≠ 0) (he : t.e ≠ 0) :
    window_from_extent xmin xmax ymin ymax t =
      ((pyInt ((ymax - t.f) / t.e), pyInt ((ymin - t.f) / t.e)),
       (pyInt ((xmin - t.c) / t.a), pyInt ((xmax - t.c) / t.a))) := by
  have h1 : t.inv.apply (xmin, ymax) =
      ((xmin - t.c) / t.a, (ymax - t.f) / t.e) := by
    simp only [Affine.inv, Affine.apply, Affine.det, hb, hd]
    refine Prod.ext ?_ ?_ <;> field_simp <;> ring
  have h2 : t.inv.apply (xmax, ymin) =
      ((xmax - t.c) / t.a, (ymin - t.f) / t.e) := by
    simp only [Affine.inv, Affine.apply, Affine.det, hb, hd]
    refine Prod.ext ?_ ?_ <;> field_simp <;> ring
  rw [window_from_extent]
  rw [h1, h2]

theorem dst_window_eq (t : Affine) (hb : t.b = 0) (hd : t.d = 0)
    (ha : t.a ≠ 0) (he : t.e ≠ 0) (w : (ℤ × ℤ) × (ℤ × ℤ)) :
    round_window (from_bounds (window_bounds w t).1 (window_bounds w t).2.1
        (window_bounds w t).2.2.1 (window_bounds w t).2.2.2
        (window_transform t w)) =
      { col_off := 0, row_off := 0, width := w.2.2 - w.2.1,
        height := w.1.2 - w.1.1 } := by
  obtain ⟨⟨r0, r1⟩, c0, c1⟩ := w
  have hfw : from_bounds (window_bounds ((r0, r1), (c0, c1)) t).1
      (window_bounds ((r0, r1), (c0, c1)) t).2.1
      (window_bounds ((r0, r1), (c0, c1)) t).2.2.1
      (window_bounds ((r0, r1), (c0, c1)) t).2.2.2
      (window_transform t ((r0, r1), (c0, c1))) =
      FracWindow.mk 0 0 (((c1 - c0 : ℤ) : ℚ)) (((r1 - r0 : ℤ) : ℚ)) := by
    ext <;>
      simp only [from_bounds, window_bounds, window_transform, Affine.mul,
        Affine.translate, Affine.inv, Affine.apply, Affine.det, hb, hd] <;>
      push_cast <;> field_simp <;> ring
  rw [hfw, round_window]
  simp only [Int.floor_zero, Int.ceil_intCast]

/-- C3: for every raster tile with a rectilinear north-up transform (the form
of the geographic MODIS tiles: no rotation terms, positive x-scale, negative
y-scale) and every bounding box inside the tile's extent, the crop-and-write
round trip of `chop_roi` — window from `window_from_extent`, cropped read,
write at the recomputed destination window — preserves the pixel values of
the cropped region exactly: output pixel (i, j) equals source pixel
(row_start + i, col_start + j). -/
theorem chop_roi_preserves_pixels {α : Type} (src : Raster α) (fill : α)
    (xmin xmax ymin ymax : ℚ)
    (hb : src.transform.b = 0) (hd : src.transform.d = 0)
    (ha : 0 < src.transform.a) (he : src.transform.e < 0)
    (hx1 : src.transform.c ≤ xmin) (hx2 : xmin ≤ xmax)
    (hx3 : xmax ≤ src.transform.c + src.transform.a * (src.width : ℚ))
    (hy1 : src.transform.f + src.transform.e * (src.height : ℚ) ≤ ymin)
    (hy2 : ymin ≤ ymax) (hy3 : ymax ≤ src.transform.f)
    (i j : ℕ)
    (hi : (i : ℤ) <
      (window_from_extent xmin xmax ymin ymax src.transform).1.2 -
      (window_from_extent xmin xmax ymin ymax src.transform).1.1)
    (hj : (j : ℤ) <
      (window_from_extent xmin xmax ymin ymax src.transform).2.2 -
      (window_from_extent xmin xmax ymin ymax src.transform).2.1) :
    (chop_roi src fill xmin xmax ymin ymax).data i j =
      src.data
        ((window_from_extent xmin xmax ymin ymax src.transform).1.1.toNat + i)
        ((window_from_extent xmin xmax ymin ymax src.transform).2.1.toNat + j) := by
  have ha' : src.transform.a ≠ 0 := ne_of_gt ha
  have he' : src.transform.e ≠ 0 := ne_of_lt he
  have hrect := window_from_extent_rect xmin xmax ymin ymax src.transform
    hb hd ha' he'
  have hr0 : 0 ≤ (window_from_extent xmin xmax ymin ymax src.transform).1.1 := by
    rw [hrect]
    exact pyInt_nonneg (div_nonneg_of_nonpos (by linarith) he.le)
  have hc0 : 0 ≤ (window_from_extent xmin xmax ymin ymax src.transform).2.1 := by
    rw [hrect]
    exact pyInt_nonneg (div_nonneg (by linarith) ha.le)
  have hdw := dst_window_eq src.transform hb hd ha' he'
    (window_from_extent xmin xmax ymin ymax src.transform)
  dsimp only [chop_roi]
  rw [hdw]
  dsimp only
  rw [if_pos]
  · congr 1 <;> omega
  · refine ⟨by omega, by omega, by omega, by omega⟩

/-- Witness for C3: the 10×10 raster with pixel value `100*row + col` and
transform (1, 0, 0, 0, -1, 10), cropped to the box x ∈ [2, 5], y ∈ [3, 7]
(window rows [3, 7), cols [2, 5)), keeps source pixel (3, 2) = 302 at output
position (0, 0). -/
theorem chop_roi_preserves_pixels_witness :
    (chop_roi (Raster.mk 10 10 (Affine.mk 1 0 0 0 (-1) 10)
        (fun i j => (i * 100 + j : ℤ))) 0 2 5 3 7).data 0 0 = 302 := by
  have hw : window_from_extent 2 5 3 7 (Affine.mk 1 0 0 0 (-1) 10) =
      ((3, 7), (2, 5)) := by
    norm_num [window_from_extent, Affine.inv, Affine.apply, Affine.det, pyInt]
  have h := chop_roi_preserves_pixels
    (Raster.mk 10 10 (Affine.mk 1 0 0 0 (-1) 10) (fun i j => (i * 100 + j : ℤ)))
    0 2 5 3 7 rfl rfl (by norm_num) (by norm_num) (by norm_num) (by norm_num)
    (by norm_num) (by norm_num) (by norm_num) (by norm_num) 0 0
    (by rw [hw]; norm_num) (by rw [hw]; norm_num)
  rw [hw] at h
  simpa using h

/-- C3 counterexample: for a tile whose transform carries a shear term
(a = 1, b = 1/2, c = 0, d = 0, e = -1, f = 10) the round trip loses pixels.
The box x ∈ [4, 8], y ∈ [3, 7] lies fully inside the tile's extent (the
pixel-space pre-images of all four corners lie inside the 10×10 pixel
rectangle, first conjunct), the crop window is rows [3, 7) × cols [2, 4),
yet the recomputed destination window is misplaced (offset 2, negative
width), so output pixel (0, 0) keeps the fill value -1 instead of source
pixel (3, 2) = 302: the crop-and-rewrite round trip does not preserve the
cropped region for every raster tile. -/
theorem chop_roi_rotated_not_preserved :
    (∀ p ∈ [((4 : ℚ), (3 : ℚ)), (8, 3), (4, 7), (8, 7)],
      0 ≤ ((Affine.mk 1 (1/2) 0 0 (-1) 10).inv.apply p).1 ∧
      ((Affine.mk 1 (1/2) 0 0 (-1) 10).inv.apply p).1 ≤ 10 ∧
      0 ≤ ((Affine.mk 1 (1/2) 0 0 (-1) 10).inv.apply p).2 ∧
      ((Affine.mk 1 (1/2) 0 0 (-1) 10).inv.apply p).2 ≤ 10) ∧
    window_from_extent 4 8 3 7 (Affine.mk 1 (1/2) 0 0 (-1) 10) =
      ((3, 7), (2, 4)) ∧
    (chop_roi (Raster.mk 10 10 (Affine.mk 1 (1/2) 0 0 (-1) 10)
        (fun i j => (i * 100 + j : ℤ))) (-1) 4 8 3 7).data 0 0 = -1 ∧
    (Raster.mk 10 10 (Affine.mk 1 (1/2) 0 0 (-1) 10)
        (fun i j => (i * 100 + j : ℤ))).data (3 + 0) (2 + 0) = 302 ∧
    ((-1 : ℤ) ≠ 302) := by
  refine ⟨?_, ?_, ?_, by norm_num, by norm_num⟩
  · intro p hp
    fin_cases hp <;>
      norm_num [Affine.inv, Affine.apply, Affine.det]
  · norm_num [window_from_extent, Affine.inv, Affine.apply, Affine.det, pyInt]
  · norm_num [chop_roi, window_from_extent, window_bounds, window_transform,
      from_bounds, round_window, Affine.mul, Affine.translate, Affine.inv,
      Affine.apply, Affine.det, pyInt, Int.ceil_neg]
